import Mathlib

/-!
Verification of the mouse-video-compressor core against its specification.

The Python sources are shallowly embedded:
* `src/backend/compression/compression_profiles.py` — profile registry,
  settings validation, recommendations, ROI adjustment;
* `src/backend/compression/motion_detector.py` — motion intensity,
  activity classification, segment generation, sleep/wake derivation;
* `src/backend/utils/progress_tracker.py` — progress events, history,
  average speed / ETA, the event-processing state machine;
* `src/backend/compression/adaptive_compressor.py` — the compression worker
  and job cancellation.

Python `float` values are modelled as `ℚ`; Python lists as `List`;
`collections.deque(maxlen=100)` as a list keeping the last 100 entries;
dictionaries keyed by strings as association lists; functions that raise
exceptions return `Except`/`Option`.
-/

namespace MouseVideo

/-- `DecidableEq` for `Except`, so concrete runs can be evaluated in proofs. -/
def exceptDecEq {e a : Type} [DecidableEq e] [DecidableEq a] :
    DecidableEq (Except e a) := fun x y =>
  match x, y with
  | .ok v, .ok w =>
    if h : v = w then isTrue (by rw [h]) else isFalse (by intro hh; cases hh; exact h rfl)
  | .error v, .error w =>
    if h : v = w then isTrue (by rw [h]) else isFalse (by intro hh; cases hh; exact h rfl)
  | .ok _, .error _ => isFalse (by intro hh; cases hh)
  | .error _, .ok _ => isFalse (by intro hh; cases hh)

instance {e a : Type} [DecidableEq e] [DecidableEq a] : DecidableEq (Except e a) :=
  exceptDecEq

/-! ## Compression profiles (`compression_profiles.py`) -/

/-- `class CompressionProfile(Enum)`. -/
inductive CompressionProfileType
  | conservative
  | balanced
  | aggressive
  | custom
deriving DecidableEq, Repr

/-- `@dataclass CompressionSettings`. Python ints are modelled as `ℤ`,
the float `bitrate_factor` as `ℚ`. -/
structure CompressionSettings where
  crf : ℤ
  fps : ℤ
  preset : String
  profile : String
  bitrate_factor : ℚ
deriving DecidableEq, Repr

/-- `@dataclass ActivityCompressionProfile`. -/
structure ActivityCompressionProfile where
  high_activity : CompressionSettings
  medium_activity : CompressionSettings
  low_activity : CompressionSettings
  inactive : CompressionSettings
  name : String
  description : String
  expected_compression_ratio : ℚ
deriving DecidableEq, Repr

/-- The built-in `conservative` profile from `_create_default_profiles`. -/
def conservativeProfile : ActivityCompressionProfile where
  high_activity := ⟨18, 30, "slow", "high", 1⟩
  medium_activity := ⟨20, 25, "slow", "high", 8/10⟩
  low_activity := ⟨23, 20, "medium", "main", 6/10⟩
  inactive := ⟨25, 15, "medium", "main", 4/10⟩
  name := "Conservative (Research Priority)"
  description := "Prioritizes quality retention, minimal compression during active periods"
  expected_compression_ratio := 45/100

/-- The built-in `balanced` profile from `_create_default_profiles`. -/
def balancedProfile : ActivityCompressionProfile where
  high_activity := ⟨21, 25, "medium", "high", 9/10⟩
  medium_activity := ⟨24, 20, "medium", "main", 7/10⟩
  low_activity := ⟨27, 15, "fast", "main", 5/10⟩
  inactive := ⟨28, 10, "fast", "baseline", 3/10⟩
  name := "Balanced (Default)"
  description := "Good balance between quality and file size reduction"
  expected_compression_ratio := 35/100

/-- The built-in `aggressive` profile from `_create_default_profiles`. -/
def aggressiveProfile : ActivityCompressionProfile where
  high_activity := ⟨23, 20, "fast", "main", 8/10⟩
  medium_activity := ⟨26, 15, "fast", "main", 6/10⟩
  low_activity := ⟨30, 10, "fast", "baseline", 4/10⟩
  inactive := ⟨32, 5, "ultrafast", "baseline", 2/10⟩
  name := "Aggressive (Storage Priority)"
  description := "Maximum compression, prioritizes storage savings"
  expected_compression_ratio := 20/100

/-- `CompressionProfileManager` state: the built-in `profiles` dict and the
`custom_profiles` dict. -/
structure CompressionProfileManager where
  profiles : List (CompressionProfileType × ActivityCompressionProfile)
  custom_profiles : List (String × ActivityCompressionProfile)
deriving DecidableEq, Repr

/-- `CompressionProfileManager.__init__`: built-ins from
`_create_default_profiles`, no custom profiles. -/
def initManager : CompressionProfileManager where
  profiles :=
    [(.conservative, conservativeProfile), (.balanced, balancedProfile),
     (.aggressive, aggressiveProfile)]
  custom_profiles := []

/-- Dict assignment `d[k] = v` on an association list (replace or append). -/
def assocSet {a : Type} [DecidableEq a] {b : Type} :
    List (a × b) → a → b → List (a × b)
  | [], k, v => [(k, v)]
  | (k', v') :: rest, k, v =>
    if k' = k then (k, v) :: rest else (k', v') :: assocSet rest k v

/-- Dict lookup `d.get(k)` on an association list. -/
def assocGet {a : Type} [DecidableEq a] {b : Type} : List (a × b) → a → Option b
  | [], _ => none
  | (k', v') :: rest, k => if k' = k then some v' else assocGet rest k

/-- `create_custom_profile`: stores the profile in `custom_profiles`
without any validation (lines 193–195). -/
def create_custom_profile (m : CompressionProfileManager) (name : String)
    (profile : ActivityCompressionProfile) : CompressionProfileManager :=
  { m with custom_profiles := assocSet m.custom_profiles name profile }

/-- `get_settings_for_activity`: map an activity-level string to the
profile's settings, `ValueError` on an unknown level. -/
def get_settings_for_activity (profile : ActivityCompressionProfile)
    (activity_level : String) : Except String CompressionSettings :=
  if activity_level = "high" then .ok profile.high_activity
  else if activity_level = "medium" then .ok profile.medium_activity
  else if activity_level = "low" then .ok profile.low_activity
  else if activity_level = "inactive" then .ok profile.inactive
  else .error ("Unknown activity level: " ++ activity_level)

/-- `CompressionValidator.validate_settings` as a boolean check
(the Python function raises `ValueError` on the same conditions). -/
def validate_settings (s : CompressionSettings) : Bool :=
  decide (0 ≤ s.crf ∧ s.crf ≤ 51) && decide (1 ≤ s.fps ∧ s.fps ≤ 60) &&
  ["ultrafast", "superfast", "veryfast", "faster", "fast", "medium", "slow",
   "slower", "veryslow"].contains s.preset &&
  ["baseline", "main", "high"].contains s.profile

/-- The CRF chain checked by `validate_profile`: CRF values do not decrease
across (high, medium, low, inactive). -/
def crfNonDecreasing (p : ActivityCompressionProfile) : Prop :=
  p.high_activity.crf ≤ p.medium_activity.crf ∧
  p.medium_activity.crf ≤ p.low_activity.crf ∧
  p.low_activity.crf ≤ p.inactive.crf

instance (p : ActivityCompressionProfile) : Decidable (crfNonDecreasing p) := by
  unfold crfNonDecreasing; infer_instance

/-- `CompressionValidator.validate_profile` as a boolean check. -/
def validate_profile (p : ActivityCompressionProfile) : Bool :=
  validate_settings p.high_activity && validate_settings p.medium_activity &&
  validate_settings p.low_activity && validate_settings p.inactive &&
  decide (crfNonDecreasing p)

/-! ## Recommendations (`get_profile_recommendations`) -/

/-- Python `round(x, 1)`: multiply by 10, round half to even, divide by 10. -/
def roundHalfEven (x : ℚ) : ℤ :=
  let n := ⌊x⌋
  if x - n < 1/2 then n
  else if 1/2 < x - n then n + 1
  else if n % 2 = 0 then n else n + 1

/-- `round(x, 1)` to one decimal digit. -/
def roundTenth (x : ℚ) : ℚ := (roundHalfEven (10 * x) : ℚ) / 10

/-- The `speed_factors` dict in `_estimate_processing_time`
(`.get(profile_type, 0.5)` supplies `custom`). -/
def speedFactor : CompressionProfileType → ℚ
  | .conservative => 3/10
  | .balanced => 5/10
  | .aggressive => 8/10
  | .custom => 5/10

/-- `_estimate_processing_time`. -/
def estimate_processing_time (duration : ℚ) (t : CompressionProfileType) : ℚ :=
  (duration / 60) / speedFactor t

/-- `_get_recommendation_reason` (lines 248–270).  Note the conservative
small-file threshold is `file_size_mb < 500` in the source. -/
def get_recommendation_reason (t : CompressionProfileType)
    (activity_ratio file_size_mb : ℚ) : String :=
  let reasons : List String :=
    match t with
    | .conservative =>
      (if activity_ratio > 7/10 then
        ["High activity content - quality preservation important"] else []) ++
      (if file_size_mb < 500 then
        ["Small file size allows for conservative compression"] else [])
    | .balanced =>
      ["Good general-purpose choice"] ++
      (if 3/10 ≤ activity_ratio ∧ activity_ratio ≤ 7/10 then
        ["Moderate activity levels suit balanced approach"] else [])
    | .aggressive =>
      (if activity_ratio < 3/10 then
        ["Low activity content allows aggressive compression"] else []) ++
      (if file_size_mb > 1000 then
        ["Large file size benefits from aggressive compression"] else [])
    | .custom => []
  if reasons = [] then "Standard recommendation"
  else String.intercalate "; " reasons

/-- Modelled from the spec:
`_get_recommendation_reason` as the spec's words describe it in claim C7 —
identical to the source rule except that the conservative small-file
relaxation uses the threshold `file_size_mb < 100`. Used only to compare
the spec's rule with the source rule. -/
def specRecommendationReason (t : CompressionProfileType)
    (activity_ratio file_size_mb : ℚ) : String :=
  let reasons : List String :=
    match t with
    | .conservative =>
      (if activity_ratio > 7/10 then
        ["High activity content - quality preservation important"] else []) ++
      (if file_size_mb < 100 then
        ["Small file size allows for conservative compression"] else [])
    | .balanced =>
      ["Good general-purpose choice"] ++
      (if 3/10 ≤ activity_ratio ∧ activity_ratio ≤ 7/10 then
        ["Moderate activity levels suit balanced approach"] else [])
    | .aggressive =>
      (if activity_ratio < 3/10 then
        ["Low activity content allows aggressive compression"] else []) ++
      (if file_size_mb > 1000 then
        ["Large file size benefits from aggressive compression"] else [])
    | .custom => []
  if reasons = [] then "Standard recommendation"
  else String.intercalate "; " reasons

/-- `profile_type.value` for the recommendation keys. -/
def profileTypeValue : CompressionProfileType → String
  | .conservative => "conservative"
  | .balanced => "balanced"
  | .aggressive => "aggressive"
  | .custom => "custom"

/-- One entry of the dict built by `get_profile_recommendations`. -/
structure ProfileRecommendation where
  profile : ActivityCompressionProfile
  estimated_output_size_mb : ℚ
  estimated_processing_time_minutes : ℚ
  compression_ratio : ℚ
  recommended_for : String
deriving DecidableEq, Repr

/-- `get_profile_recommendations` (lines 211–246). -/
def get_profile_recommendations (m : CompressionProfileManager)
    (video_duration file_size_mb activity_ratio : ℚ) :
    List (String × ProfileRecommendation) :=
  m.profiles.map (fun tp =>
    (profileTypeValue tp.1,
     { profile := tp.2
       estimated_output_size_mb :=
         roundTenth (file_size_mb * tp.2.expected_compression_ratio)
       estimated_processing_time_minutes :=
         roundTenth (estimate_processing_time video_duration tp.1)
       compression_ratio := tp.2.expected_compression_ratio
       recommended_for :=
         get_recommendation_reason tp.1 activity_ratio file_size_mb }))

/-! ## ROI adjustment (`ROICompressionSettings`) -/

/-- `ROICompressionSettings.__init__` constants. -/
structure ROICompressionSettings where
  roi_quality_boost : ℤ
  background_quality_reduction : ℤ
  roi_padding : ℤ
  enable_roi_compression : Bool
deriving DecidableEq, Repr

/-- The constructed `ROICompressionSettings()` instance. -/
def initROISettings : ROICompressionSettings := ⟨3, 5, 50, true⟩

/-- `adjust_settings_for_roi` (lines 282–297). -/
def adjust_settings_for_roi (r : ROICompressionSettings)
    (base_settings : CompressionSettings) (has_roi : Bool) : CompressionSettings :=
  if !r.enable_roi_compression || !has_roi then base_settings
  else
    { crf := max 0 (base_settings.crf - r.roi_quality_boost)
      fps := base_settings.fps
      preset := base_settings.preset
      profile := base_settings.profile
      bitrate_factor := base_settings.bitrate_factor * (12/10) }

/-! ## Motion detector (`motion_detector.py`), with the default configuration
(thresholds high = 0.08, medium = 0.04, low = 0.01,
`min_inactive_duration` = 30). -/

/-- `@dataclass ActivitySegment`. -/
structure ActivitySegment where
  start_time : ℚ
  end_time : ℚ
  activity_level : String
  motion_intensity : ℚ
  frame_start : ℕ
  frame_end : ℕ
deriving DecidableEq, Repr

/-- `@dataclass MotionAnalysisResult`. -/
structure MotionAnalysisResult where
  total_duration : ℚ
  total_frames : ℕ
  fps : ℚ
  activity_segments : List ActivitySegment
  motion_timeline : List ℚ
  sleep_periods : List (ℚ × ℚ)
  active_periods : List (ℚ × ℚ)
  overall_activity_ratio : ℚ
deriving DecidableEq, Repr

/-- Exceptions that `analyze_video` actually raises: `ValueError` when the
file cannot be opened, and the uncaught `IndexError` from
`_generate_activity_segments` reading `motion_timeline[0]` of an empty
timeline.  The source defines no `InsufficientFramesError`. -/
inductive AnalyzeError
  | cannotOpen
  | indexError
deriving DecidableEq, Repr

/-- `_classify_activity` with the default `activity_thresholds`. -/
def classify_activity (motion_intensity : ℚ) : String :=
  if 8/100 ≤ motion_intensity then "high"
  else if 4/100 ≤ motion_intensity then "medium"
  else if 1/100 ≤ motion_intensity then "low"
  else "inactive"

/-- `np.mean` of a list of rationals. -/
def listMean (l : List ℚ) : ℚ := l.sum / l.length

/-- `_calculate_motion_intensity` after the frame-level computer-vision
calls: `bg` is `bg_motion_ratio`, `of` is `optical_flow_intensity`, `fd`
is `frame_diff_intensity` (each a nonnegative measurement), and the result
is the weighted combination capped at 1. -/
def calculate_motion_intensity (bg of fd : ℚ) : ℚ :=
  min (bg * (5/10) + of * (3/10) + fd * (2/10)) 1

/-- The loop of `_generate_activity_segments`: walk the timeline starting
at frame index `i`, carrying the current segment start index, level and
collected intensities, plus the already-finished segments.  A segment is
closed when the classified level changes or the segment reaches
`fps * 10` frames. -/
def segLoop (fps : ℚ) (tlen : ℕ) :
    List ℚ → ℕ → ℕ → String → List ℚ → List ActivitySegment → List ActivitySegment
  | [], _i, start, level, vals, acc =>
    if start < tlen then
      acc ++ [⟨(start : ℚ) / fps, (tlen : ℚ) / fps, level, listMean vals, start, tlen⟩]
    else acc
  | v :: rest, i, start, level, vals, acc =>
    let lv := classify_activity v
    if lv ≠ level ∨ fps * 10 ≤ ((i - start : ℕ) : ℚ) then
      segLoop fps tlen rest (i + 1) i lv [v]
        (acc ++ [⟨(start : ℚ) / fps, (i : ℚ) / fps, level, listMean vals, start, i⟩])
    else
      segLoop fps tlen rest (i + 1) start level (vals ++ [v]) acc

/-- `_generate_activity_segments`.  On an empty timeline the Python code
raises `IndexError` at `motion_timeline[0]`. -/
def generate_activity_segments (motion_timeline : List ℚ) (fps : ℚ) :
    Except AnalyzeError (List ActivitySegment) :=
  match motion_timeline with
  | [] => .error .indexError
  | v :: rest =>
    .ok (segLoop fps motion_timeline.length rest 1 0 (classify_activity v) [v] [])

/-- The loop of `_identify_sleep_wake_cycles`, carrying the
`current_inactive_start` / `current_active_start` pointers and the
accumulated sleep and active periods. -/
def sleepWakeLoop (min_inactive : ℚ) :
    List ActivitySegment → Option ℚ → Option ℚ → List (ℚ × ℚ) → List (ℚ × ℚ) →
    List (ℚ × ℚ) × List (ℚ × ℚ) × Option ℚ × Option ℚ
  | [], inactiveStart, activeStart, sleep, active =>
    (sleep, active, inactiveStart, activeStart)
  | seg :: rest, inactiveStart, activeStart, sleep, active =>
    if seg.activity_level = "inactive" then
      let active' := match activeStart with
        | some a => active ++ [(a, seg.start_time)]
        | none => active
      let inactiveStart' := match inactiveStart with
        | none => some seg.start_time
        | some s => some s
      sleepWakeLoop min_inactive rest inactiveStart' none sleep active'
    else
      let sleep' := match inactiveStart with
        | some s =>
          if min_inactive ≤ seg.start_time - s then sleep ++ [(s, seg.start_time)]
          else sleep
        | none => sleep
      let activeStart' := match activeStart with
        | none => some seg.start_time
        | some a => some a
      sleepWakeLoop min_inactive rest none activeStart' sleep' active

/-- `_identify_sleep_wake_cycles` with the final-period handling (the
Python code reads `segments[-1].end_time`; a pointer is only set when at
least one segment was seen, so the list is nonempty there). -/
def identify_sleep_wake_cycles (min_inactive : ℚ) (segments : List ActivitySegment) :
    List (ℚ × ℚ) × List (ℚ × ℚ) :=
  let r := sleepWakeLoop min_inactive segments none none [] []
  let sleep := r.1
  let active := r.2.1
  let inactiveStart := r.2.2.1
  let activeStart := r.2.2.2
  let finalTime := (segments.getLast?).map ActivitySegment.end_time
  let sleep' := match inactiveStart, finalTime with
    | some s, some ft =>
      if min_inactive ≤ ft - s then sleep ++ [(s, ft)] else sleep
    | _, _ => sleep
  let active' := match activeStart, finalTime with
    | some a, some ft => active ++ [(a, ft)]
    | _, _ => active
  (sleep', active')

/-- `analyze_video` with the decoding abstracted: `fps` and
`metaTotalFrames` are the container properties read from the capture, and
`decoded` is the per-frame motion-intensity sequence actually produced by
the read loop (the loop stops at the first failed read, so a mid-stream
decode failure simply truncates this list). -/
def analyze_video (fps : ℚ) (metaTotalFrames : ℕ) (decoded : List ℚ) :
    Except AnalyzeError MotionAnalysisResult :=
  let duration := (metaTotalFrames : ℚ) / fps
  match generate_activity_segments decoded fps with
  | .error e => .error e
  | .ok segs =>
    let p := identify_sleep_wake_cycles 30 segs
    let total_active_time := (p.2.map (fun q => q.2 - q.1)).sum
    .ok
      { total_duration := duration
        total_frames := metaTotalFrames
        fps := fps
        activity_segments := segs
        motion_timeline := decoded
        sleep_periods := p.1
        active_periods := p.2
        overall_activity_ratio := if 0 < duration then total_active_time / duration else 0 }

/-! ## Progress tracker (`progress_tracker.py`).  Timestamps (`datetime`)
are modelled as rationals (seconds). -/

/-- `class ProgressEventType(str, Enum)`. -/
inductive ProgressEventType
  | started
  | progress
  | stage_changed
  | error
  | completed
  | cancelled
deriving DecidableEq, Repr

/-- The event types treated as terminal by `ProgressHistory.add_event` and
`_process_event`. -/
def ProgressEventType.isTerminal : ProgressEventType → Bool
  | .completed => true
  | .cancelled => true
  | .error => true
  | _ => false

/-- `@dataclass ProgressEvent` (the optional payload dict is omitted; no
claim touches it). -/
structure ProgressEvent where
  job_id : String
  event_type : ProgressEventType
  timestamp : ℚ
  percentage : ℚ
  stage : String
  message : String
deriving DecidableEq, Repr

/-- `@dataclass ProgressSnapshot` (`processing_speed` and the payload are
omitted; the source never sets them). -/
structure ProgressSnapshot where
  percentage : ℚ
  stage : String
  message : String
  timestamp : ℚ
  estimated_completion : Option ℚ
deriving DecidableEq, Repr

/-- `ProgressHistory` with its two `deque(maxlen=100)` buffers. -/
structure ProgressHistory where
  snapshots : List ProgressSnapshot
  events : List ProgressEvent
  start_time : Option ℚ
  end_time : Option ℚ
deriving DecidableEq, Repr

/-- `ProgressHistory()` as constructed. -/
def emptyHistory : ProgressHistory := ⟨[], [], none, none⟩

/-- Append on a `deque(maxlen=maxlen)`: keep the last `maxlen` entries. -/
def boundedAppend {a : Type} (maxlen : ℕ) (l : List a) (x : a) : List a :=
  let l' := l ++ [x]
  l'.drop (l'.length - maxlen)

/-- `ProgressHistory.add_snapshot`. -/
def addSnapshot (h : ProgressHistory) (s : ProgressSnapshot) : ProgressHistory :=
  { h with
    start_time := match h.start_time with
      | none => some s.timestamp
      | t => t
    snapshots := boundedAppend 100 h.snapshots s }

/-- `ProgressHistory.add_event`. -/
def addEvent (h : ProgressHistory) (e : ProgressEvent) : ProgressHistory :=
  { h with
    events := boundedAppend 100 h.events e
    end_time := if e.event_type.isTerminal then some e.timestamp else h.end_time }

/-- `ProgressHistory.get_average_speed` (lines 70–83): slope between the
first and last snapshots, `None` with fewer than two snapshots or a
nonpositive time difference. -/
def get_average_speed : List ProgressSnapshot → Option ℚ
  | [] => none
  | [_] => none
  | first :: s :: rest =>
    let last := (s :: rest).getLast (List.cons_ne_nil s rest)
    let time_diff := last.timestamp - first.timestamp
    let progress_diff := last.percentage - first.percentage
    if 0 < time_diff then some (progress_diff / time_diff) else none

/-- `ProgressHistory.estimate_completion` (lines 85–92).  The Python guard
`if speed and speed > 0 and current_percentage < 100` needs `speed` both
truthy (non-`None`, nonzero) and positive. -/
def estimate_completion (snapshots : List ProgressSnapshot)
    (now current_percentage : ℚ) : Option ℚ :=
  match get_average_speed snapshots with
  | none => none
  | some speed =>
    if speed ≠ 0 ∧ 0 < speed ∧ current_percentage < 100 then
      some (now + (100 - current_percentage) / speed)
    else none

/-- One entry of `ProgressTracker.active_jobs`. -/
structure ActiveJobInfo where
  start_time : ℚ
  current_stage : String
  current_percentage : ℚ
  last_update : Option ℚ
deriving DecidableEq, Repr

/-- `del d[k]` on an association list. -/
def assocDelete {a : Type} [DecidableEq a] {b : Type} :
    List (a × b) → a → List (a × b)
  | [], _ => []
  | (k', v') :: rest, k =>
    if k' = k then assocDelete rest k else (k', v') :: assocDelete rest k

/-- `ProgressTracker` state.  `processed_log` records the events in the
order the single dispatcher thread processed them — each subscriber to a
job receives exactly this log filtered to its job, in this order. -/
structure TrackerState where
  job_progress : List (String × ProgressHistory)
  active_jobs : List (String × ActiveJobInfo)
  processed_log : List ProgressEvent
  completed_jobs : ℕ
  failed_jobs : ℕ
  cancelled_jobs : ℕ
deriving DecidableEq, Repr

/-- `ProgressTracker()` as constructed. -/
def initialTracker : TrackerState := ⟨[], [], [], 0, 0, 0⟩

/-- `_process_event` (lines 148–190): update the job's history,
snapshot on `progress` events, maintain `active_jobs` and the counters,
then notify subscribers.  `now` stands for `datetime.now()` inside the
snapshot's `estimate_completion` call. -/
def process_event (now : ℚ) (st : TrackerState) (e : ProgressEvent) : TrackerState :=
  let history := (assocGet st.job_progress e.job_id).getD emptyHistory
  let history := addEvent history e
  let history :=
    if e.event_type = .progress then
      addSnapshot history
        ⟨e.percentage, e.stage, e.message, e.timestamp,
         estimate_completion history.snapshots now e.percentage⟩
    else history
  let active_jobs :=
    if e.event_type = .started then
      assocSet st.active_jobs e.job_id ⟨e.timestamp, e.stage, e.percentage, none⟩
    else if e.event_type.isTerminal then assocDelete st.active_jobs e.job_id
    else st.active_jobs
  { job_progress := assocSet st.job_progress e.job_id history
    active_jobs := active_jobs
    processed_log := st.processed_log ++ [e]
    completed_jobs :=
      st.completed_jobs + (if e.event_type = .completed then 1 else 0)
    failed_jobs := st.failed_jobs + (if e.event_type = .error then 1 else 0)
    cancelled_jobs :=
      st.cancelled_jobs + (if e.event_type = .cancelled then 1 else 0) }

/-- The dispatcher thread draining the FIFO event queue: process the
submitted events in submission order.  Each pair is (`datetime.now()` at
processing time, event). -/
def process_all (st : TrackerState) (evs : List (ℚ × ProgressEvent)) : TrackerState :=
  evs.foldl (fun s p => process_event p.1 s p.2) st

/-- The event history the tracker holds for job `j`. -/
def historyEventsOf (j : String) (st : TrackerState) : List ProgressEvent :=
  ((assocGet st.job_progress j).getD emptyHistory).events

/-- What a subscriber to job `j` has received: the processed events with
that job id, in processing order (`_notify_subscribers` is called once per
processed event). -/
def deliveredTo (j : String) (st : TrackerState) : List ProgressEvent :=
  st.processed_log.filter (fun e => e.job_id = j)

/-- `update_progress` (lines 207–233): the `PROGRESS` event it builds and
enqueues.  The percentage is clamped by `max(0, min(100, percentage))`;
the stage falls back to the active job's current stage or `"unknown"`. -/
def update_progress_event (st : TrackerState) (job_id : String)
    (now percentage : ℚ) (stage message : Option String) : ProgressEvent :=
  let current_stage :=
    ((assocGet st.active_jobs job_id).map ActiveJobInfo.current_stage).getD "unknown"
  { job_id := job_id
    event_type := .progress
    timestamp := now
    percentage := max 0 (min 100 percentage)
    stage := stage.getD current_stage
    message := message.getD ("Progress: " ++ toString percentage ++ "%") }

/-! ## Compression worker and cancellation (`adaptive_compressor.py`) -/

/-- The `CompressionJob` fields the cancellation claim is about.
`outputExists` models whether the file at `job.output_path` exists. -/
structure CompressionJobState where
  status : String
  progress : ℚ
  current_segment : ℕ
  total_segments : ℕ
  outputExists : Bool
deriving DecidableEq, Repr

/-- A freshly created job (`start_compression_job`): `status = "pending"`,
no output yet. -/
def newJob : CompressionJobState := ⟨"pending", 0, 0, 0, false⟩

/-- The stage boundaries of `_compress_video_worker` on its success path
(lines 116–167 with `_compress_adaptive_segments`): set `running`, run
motion analysis, encode the segments into the temp dir, concatenate into
the output file, then set `completed`.  Faithful to the source, none of
these stages reads `job.status`: the worker never observes a cancellation
mark. -/
def workerPhases (segCount : ℕ) : List (CompressionJobState → CompressionJobState) :=
  [fun j => { j with status := "running" },
   fun j => { j with progress := 20, total_segments := segCount },
   fun j => { j with progress := 90, current_segment := segCount },
   fun j => { j with outputExists := true },
   fun j => { j with status := "completed", progress := 100 }]

/-- Run a list of worker stages in order. -/
def runPhases (ps : List (CompressionJobState → CompressionJobState))
    (j : CompressionJobState) : CompressionJobState :=
  ps.foldl (fun s f => f s) j

/-- `cancel_job` (lines 378–405) acting on the job record: if the job is
`running`, mark it `cancelled`, remove the partial output file and return
`True`; otherwise return `False`. -/
def cancel_job_update (j : CompressionJobState) : CompressionJobState × Bool :=
  if j.status = "running" then
    ({ j with status := "cancelled", outputExists := false }, true)
  else (j, false)

/-- The per-segment settings computation of `_compress_adaptive_segments`
(lines 193–202): look up the settings for the segment's activity level;
when ROI is enabled, a segment counts as having an ROI iff its mean motion
intensity exceeds 0.02, and the settings are adjusted accordingly. -/
def segmentSettings (profile : ActivityCompressionProfile) (roi_enabled : Bool)
    (seg : ActivitySegment) : Except String CompressionSettings :=
  match get_settings_for_activity profile seg.activity_level with
  | .error e => .error e
  | .ok settings =>
    if roi_enabled then
      let has_roi := decide (2/100 < seg.motion_intensity)
      .ok (adjust_settings_for_roi initROISettings settings has_roi)
    else .ok settings

/-- The per-segment invariant of claim C4: intensity within `[0, 1]` and
the stored label equal to the classification of the stored intensity. -/
def SegGood (s : ActivitySegment) : Prop :=
  0 ≤ s.motion_intensity ∧ s.motion_intensity ≤ 1 ∧
  s.activity_level = classify_activity s.motion_intensity

/-- `coversFrom fps a segs b`: the segments tile the frame range `[a, b)`
contiguously, each nonempty, with start/end times equal to the frame
bounds divided by `fps`. -/
def coversFrom (fps : ℚ) : ℕ → List ActivitySegment → ℕ → Prop
  | a, [], b => a = b
  | a, s :: rest, b =>
    s.frame_start = a ∧ a < s.frame_end ∧
    s.start_time = (a : ℚ) / fps ∧ s.end_time = (s.frame_end : ℚ) / fps ∧
    coversFrom fps s.frame_end rest b

/-- A profile whose CRF values decrease with decreasing activity (quality
improves as activity drops), violating the registry invariant. -/
def c5BadProfile : ActivityCompressionProfile where
  high_activity := ⟨30, 30, "fast", "main", 1⟩
  medium_activity := ⟨20, 25, "fast", "main", 1⟩
  low_activity := ⟨10, 20, "fast", "main", 1⟩
  inactive := ⟨5, 15, "fast", "main", 1⟩
  name := "bad"
  description := "CRF decreases across activity levels"
  expected_compression_ratio := 5/10

/-! ## Theorems -/

/-- C5 counterexample: `create_custom_profile` performs no validation, so
the registry can hold a user-added profile whose CRF values are strictly
decreasing across (high, medium, low, inactive) — `validate_profile`
would reject it, but it is never called. -/
theorem c5_counterexample :
    assocGet (create_custom_profile initManager "bad" c5BadProfile).custom_profiles "bad" =
      some c5BadProfile ∧
    ¬ crfNonDecreasing c5BadProfile ∧
    validate_profile c5BadProfile = false := by
  refine ⟨rfl, by decide, by decide⟩

/-- C5 (amended): the three built-in profiles all satisfy the
non-decreasing-CRF invariant, and adding a custom profile never changes
the built-in `profiles` map; but `create_custom_profile` does not validate
its argument, so user-added custom profiles need not satisfy the
invariant. -/
theorem c5_amended :
    (∀ tp ∈ initManager.profiles, crfNonDecreasing tp.2) ∧
    ∀ (m : CompressionProfileManager) (name : String)
      (p : ActivityCompressionProfile),
      (create_custom_profile m name p).profiles = m.profiles := by
  constructor
  · intro tp htp
    simp only [initManager, List.mem_cons, List.not_mem_nil, or_false] at htp
    rcases htp with h | h | h <;> subst h <;> decide
  · intro m name p
    rfl

/-- C5 witness: the invariant holds for the built-in balanced profile. -/
theorem c5_witness : crfNonDecreasing balancedProfile :=
  c5_amended.1 (.balanced, balancedProfile) (by simp [initManager])

/-- C8 (confirmed): when ROI mode is enabled and the segment's mean
motion intensity exceeds 0.02, the segment is encoded with the base
settings' CRF decreased by 3 (floored at 0) and bitrate factor multiplied
by 1.2, with FPS, preset, and encoder profile unchanged; otherwise the
base settings are used unmodified. -/
theorem c8_confirmed (profile : ActivityCompressionProfile)
    (seg : ActivitySegment) (roi_enabled : Bool) (base : CompressionSettings)
    (hbase : get_settings_for_activity profile seg.activity_level = .ok base) :
    (roi_enabled = true → 2/100 < seg.motion_intensity →
      segmentSettings profile roi_enabled seg =
        .ok ⟨max 0 (base.crf - 3), base.fps, base.preset, base.profile,
             base.bitrate_factor * (12/10)⟩) ∧
    (roi_enabled = false ∨ ¬ 2/100 < seg.motion_intensity →
      segmentSettings profile roi_enabled seg = .ok base) := by
  unfold segmentSettings
  rw [hbase]
  cases roi_enabled with
  | false =>
    constructor
    · intro h
      exact absurd h (by simp)
    · intro _
      rfl
  | true =>
    constructor
    · intro _ hint
      simp only [if_true]
      rw [decide_eq_true hint]
      rfl
    · intro h
      rcases h with h | h
      · cases h
      · simp only [if_true]
        rw [decide_eq_false h]
        rfl

/-- C8 witness: a high-activity segment with mean intensity 0.1 under the
balanced profile, ROI enabled. -/
theorem c8_witness :
    segmentSettings balancedProfile true ⟨0, 1, "high", 1/10, 0, 30⟩ =
      .ok ⟨max 0 (balancedProfile.high_activity.crf - 3),
           balancedProfile.high_activity.fps,
           balancedProfile.high_activity.preset,
           balancedProfile.high_activity.profile,
           balancedProfile.high_activity.bitrate_factor * (12/10)⟩ :=
  (c8_confirmed balancedProfile ⟨0, 1, "high", 1/10, 0, 30⟩ true
    balancedProfile.high_activity rfl).1 rfl (by norm_num)

/-- C10 (confirmed): for every percentage input, the `PROGRESS` event built
by `update_progress` carries `max(0, min(100, percentage))`, which always
lies in `[0, 100]` — out-of-range inputs are clamped, not rejected. -/
theorem c10_confirmed (st : TrackerState) (job_id : String)
    (now percentage : ℚ) (stage message : Option String) :
    (update_progress_event st job_id now percentage stage message).percentage =
      max 0 (min 100 percentage) ∧
    0 ≤ (update_progress_event st job_id now percentage stage message).percentage ∧
    (update_progress_event st job_id now percentage stage message).percentage ≤ 100 ∧
    (update_progress_event st job_id now percentage stage message).event_type =
      .progress := by
  refine ⟨rfl, ?_, ?_, rfl⟩
  · exact le_max_left 0 _
  · exact max_le (by norm_num) (min_le_left 100 percentage)

/-- C1 (code bug): `cancel_job` marks a running job `cancelled` and
deletes the partial output, and its own comment says the worker thread
will check the status and exit — but `_compress_video_worker` never reads
`job.status`.  Cancelling right after the motion-analysis stage, the
worker still encodes the remaining segments, concatenates them into the
final output, and overwrites the status with `completed`: the job ends
`completed` and the output file exists, contradicting the claim. -/
theorem c1_code_bug (segCount : ℕ) :
    (cancel_job_update (runPhases ((workerPhases segCount).take 2) newJob)).2 = true ∧
    (cancel_job_update (runPhases ((workerPhases segCount).take 2) newJob)).1.status =
      "cancelled" ∧
    (cancel_job_update (runPhases ((workerPhases segCount).take 2) newJob)).1.outputExists =
      false ∧
    (runPhases ((workerPhases segCount).drop 2)
      (cancel_job_update (runPhases ((workerPhases segCount).take 2) newJob)).1).status =
      "completed" ∧
    (runPhases ((workerPhases segCount).drop 2)
      (cancel_job_update (runPhases ((workerPhases segCount).take 2) newJob)).1).outputExists =
      true :=
  ⟨rfl, rfl, rfl, rfl, rfl⟩

/-- The conservative rationale is non-trivial exactly when the activity
ratio exceeds 0.7 or the file size is below 500 MB (the source threshold,
not the spec's 100 MB). -/
lemma reason_conservative (ratio size : ℚ) :
    get_recommendation_reason .conservative ratio size ≠ "Standard recommendation" ↔
      (ratio > 7/10 ∨ size < 500) := by
  unfold get_recommendation_reason
  by_cases h1 : ratio > 7/10 <;> by_cases h2 : size < 500 <;>
    simp [h1, h2] <;> decide

/-- The aggressive rationale is non-trivial exactly when the activity
ratio is below 0.3 or the file size exceeds 1000 MB. -/
lemma reason_aggressive (ratio size : ℚ) :
    get_recommendation_reason .aggressive ratio size ≠ "Standard recommendation" ↔
      (ratio < 3/10 ∨ size > 1000) := by
  unfold get_recommendation_reason
  by_cases h1 : ratio < 3/10 <;> by_cases h2 : size > 1000 <;>
    simp [h1, h2] <;> decide

/-- The balanced rationale always carries the general-purpose reason. -/
lemma reason_balanced (ratio size : ℚ) :
    get_recommendation_reason .balanced ratio size ≠ "Standard recommendation" := by
  unfold get_recommendation_reason
  by_cases h1 : 3/10 ≤ ratio ∧ ratio ≤ 7/10 <;> simp [h1] <;> decide

/-- C7 counterexample: at activity ratio 0.5 and file size 300 MB the
source gives the conservative profile the small-file rationale (its
threshold is `size_mb < 500`), while the spec's stated rule (threshold
`size_mb < 100`) gives no rationale. -/
theorem c7_counterexample :
    get_recommendation_reason .conservative (5/10) 300 =
      "Small file size allows for conservative compression" ∧
    specRecommendationReason .conservative (5/10) 300 =
      "Standard recommendation" ∧
    get_recommendation_reason .conservative (5/10) 300 ≠
      specRecommendationReason .conservative (5/10) 300 := by
  refine ⟨?_, ?_, ?_⟩
  · unfold get_recommendation_reason
    norm_num
    decide
  · unfold specRecommendationReason
    norm_num
  · unfold get_recommendation_reason specRecommendationReason
    norm_num
    decide

/-- C7 (amended): for every input, each built-in profile's recommendation
carries `round(size_mb · nominal_ratio, 1)` as estimated size,
`round((duration/60)/speed_factor, 1)` as estimated processing time
(speed factors 0.3/0.5/0.8), and a rationale thresholded on
`activity_ratio` (>0.7 favors conservative, <0.3 favors aggressive, else
balanced) and on `size_mb` with the source's conservative small-file
threshold of 500 (not 100) and the aggressive large-file threshold of
1000. -/
theorem c7_amended (d size ratio : ℚ)
    (tp : CompressionProfileType × ActivityCompressionProfile)
    (h : tp ∈ initManager.profiles) :
    ((profileTypeValue tp.1,
      { profile := tp.2
        estimated_output_size_mb :=
          roundTenth (size * tp.2.expected_compression_ratio)
        estimated_processing_time_minutes :=
          roundTenth ((d / 60) / speedFactor tp.1)
        compression_ratio := tp.2.expected_compression_ratio
        recommended_for := get_recommendation_reason tp.1 ratio size }) :
        String × ProfileRecommendation) ∈
      get_profile_recommendations initManager d size ratio ∧
    (tp.1 = .conservative →
      (get_recommendation_reason tp.1 ratio size ≠ "Standard recommendation" ↔
        (ratio > 7/10 ∨ size < 500))) ∧
    (tp.1 = .aggressive →
      (get_recommendation_reason tp.1 ratio size ≠ "Standard recommendation" ↔
        (ratio < 3/10 ∨ size > 1000))) ∧
    (tp.1 = .balanced →
      get_recommendation_reason tp.1 ratio size ≠ "Standard recommendation") := by
  refine ⟨?_, ?_, ?_, ?_⟩
  · unfold get_profile_recommendations estimate_processing_time
    exact List.mem_map_of_mem _ h
  · intro ht
    rw [ht]
    exact reason_conservative ratio size
  · intro ht
    rw [ht]
    exact reason_aggressive ratio size
  · intro ht
    rw [ht]
    exact reason_balanced ratio size

/-- C7 witness: the conservative recommendation at duration 600 s,
size 300 MB, activity ratio 0.5. -/
theorem c7_witness :
    (("conservative",
      { profile := conservativeProfile
        estimated_output_size_mb := roundTenth (300 * (45/100))
        estimated_processing_time_minutes := roundTenth ((600 / 60) / (3/10))
        compression_ratio := 45/100
        recommended_for :=
          get_recommendation_reason .conservative (5/10) 300 }) :
        String × ProfileRecommendation) ∈
      get_profile_recommendations initManager 600 300 (5/10) :=
  (c7_amended 600 300 (5/10) (.conservative, conservativeProfile)
    (by simp [initManager])).1

/-- C6 counterexample: with snapshot history (0 % at t=0, 50 % at t=1,
0 % at t=2) two snapshots differ in percent, yet `get_average_speed`
returns 0 — it only looks at the first and last snapshots. -/
theorem c6_counterexample :
    get_average_speed
      [⟨0, "s", "m", 0, none⟩, ⟨50, "s", "m", 1, none⟩, ⟨0, "s", "m", 2, none⟩] =
      some 0 ∧
    (⟨0, "s", "m", 0, none⟩ : ProgressSnapshot).percentage ≠
      (⟨50, "s", "m", 1, none⟩ : ProgressSnapshot).percentage := by
  constructor
  · simp only [get_average_speed, List.getLast]
    norm_num
  · norm_num

/-- C6 (amended): with at least two snapshots, `get_average_speed` is
`(last.percent − first.percent) / (last.ts − first.ts)` when the
timestamps strictly increase and `None` otherwise; it is nonzero whenever
the FIRST and LAST snapshots (not arbitrary pairs) differ in percent and
it is defined; the ETA is `now + (100 − current)/avg_speed` exactly when
`avg_speed > 0` and `current < 100`, and `None` otherwise. -/
theorem c6_amended (snapshots : List ProgressSnapshot)
    (first last : ProgressSnapshot)
    (hfirst : snapshots.head? = some first)
    (hlast : snapshots.getLast? = some last)
    (hlen : 2 ≤ snapshots.length) :
    (first.timestamp < last.timestamp →
      get_average_speed snapshots =
        some ((last.percentage - first.percentage) /
          (last.timestamp - first.timestamp))) ∧
    (¬ first.timestamp < last.timestamp → get_average_speed snapshots = none) ∧
    (first.timestamp < last.timestamp → first.percentage ≠ last.percentage →
      ∃ s, get_average_speed snapshots = some s ∧ s ≠ 0) ∧
    (∀ now current,
      (get_average_speed snapshots = none →
        estimate_completion snapshots now current = none) ∧
      (∀ s, get_average_speed snapshots = some s →
        (0 < s → current < 100 →
          estimate_completion snapshots now current =
            some (now + (100 - current) / s)) ∧
        (¬ (0 < s ∧ current < 100) →
          estimate_completion snapshots now current = none))) := by
  match snapshots, hfirst, hlast, hlen with
  | a :: b :: rest, hfirst, hlast, _ =>
  have ha : a = first := by simpa using hfirst
  subst ha
  have hb : (b :: rest).getLast (List.cons_ne_nil b rest) = last := by
    rw [List.getLast?_cons_cons,
      List.getLast?_eq_getLast (b :: rest) (List.cons_ne_nil b rest),
      Option.some_inj] at hlast
    exact hlast
  have hg : get_average_speed (a :: b :: rest) =
      if 0 < last.timestamp - a.timestamp then
        some ((last.percentage - a.percentage) / (last.timestamp - a.timestamp))
      else none := by
    simp only [get_average_speed]
    rw [hb]
  refine ⟨?_, ?_, ?_, ?_⟩
  · intro ht
    rw [hg, if_pos (sub_pos.mpr ht)]
  · intro ht
    rw [hg, if_neg (mt sub_pos.mp ht)]
  · intro ht hne
    refine ⟨_, by rw [hg, if_pos (sub_pos.mpr ht)], ?_⟩
    apply div_ne_zero
    · exact sub_ne_zero.mpr (Ne.symm hne)
    · exact ne_of_gt (sub_pos.mpr ht)
  · intro now current
    constructor
    · intro hnone
      unfold estimate_completion
      rw [hnone]
    · intro s hs
      constructor
      · intro hpos hcur
        unfold estimate_completion
        rw [hs]
        show (if s ≠ 0 ∧ 0 < s ∧ current < 100 then
          some (now + (100 - current) / s) else none) = _
        rw [if_pos ⟨ne_of_gt hpos, hpos, hcur⟩]
      · intro hnot
        unfold estimate_completion
        rw [hs]
        show (if s ≠ 0 ∧ 0 < s ∧ current < 100 then
          some (now + (100 - current) / s) else none) = none
        rw [if_neg]
        rintro ⟨_, hpos, hcur⟩
        exact hnot ⟨hpos, hcur⟩

/-- C6 witness: two snapshots, 0 % at t=0 and 50 % at t=1, give average
speed 50 percent per second. -/
theorem c6_witness :
    get_average_speed [⟨0, "s", "m", 0, none⟩, ⟨50, "s", "m", 1, none⟩] =
      some 50 := by
  have h := (c6_amended [⟨0, "s", "m", 0, none⟩, ⟨50, "s", "m", 1, none⟩]
    ⟨0, "s", "m", 0, none⟩ ⟨50, "s", "m", 1, none⟩ (by simp) (by simp)
    (by simp)).1 (by norm_num)
  rw [h]
  norm_num

/-- C2 counterexample: with container metadata promising 200 frames but
only 3 frames decoded (0.1 s at 30 fps, far below 1 s), `analyze_video`
still returns a result — the read loop cannot distinguish a mid-stream
decode failure from EOF, no 1-second check exists, and no
`InsufficientFramesError` is ever raised. -/
theorem c2_counterexample :
    analyze_video 30 200 [0, 0, 0] =
      .ok ⟨20/3, 200, 30, [⟨0, 1/10, "inactive", 0, 0, 3⟩], [0, 0, 0], [], [], 0⟩ := by
  norm_num [analyze_video, generate_activity_segments, segLoop, classify_activity,
    listMean, identify_sleep_wake_cycles, sleepWakeLoop]

/-- C2 (amended): with zero decodable frames, `analyze_video` fails with
the uncaught `IndexError` raised by `_generate_activity_segments` reading
`motion_timeline[0]` (the source defines no `InsufficientFramesError`),
and no result is produced; with at least one decoded frame the analysis
always succeeds, truncated at the last decoded frame, regardless of how
little of the video was decoded. -/
theorem c2_amended (fps : ℚ) (metaTotalFrames : ℕ) (decoded : List ℚ) :
    (decoded = [] →
      analyze_video fps metaTotalFrames decoded = .error .indexError) ∧
    (decoded ≠ [] → ∃ r, analyze_video fps metaTotalFrames decoded = .ok r ∧
      r.motion_timeline = decoded ∧ r.total_frames = metaTotalFrames ∧
      r.fps = fps) := by
  constructor
  · intro h
    subst h
    rfl
  · intro h
    match decoded, h with
    | v :: rest, _ => exact ⟨_, rfl, rfl, rfl, rfl⟩

/-- C2 witness: the empty decode stream at 30 fps with metadata count 200
yields the index error. -/
theorem c2_witness :
    analyze_video 30 200 ([] : List ℚ) = .error .indexError :=
  (c2_amended 30 200 ([] : List ℚ)).1 rfl

/-- Sum bounded above by a per-element bound. -/
lemma sum_le_mul_length (l : List ℚ) (c : ℚ) (hc : ∀ x ∈ l, x ≤ c) :
    l.sum ≤ c * l.length := by
  induction l with
  | nil => simp
  | cons x t ih =>
    have h1 := hc x (by simp)
    have h2 := ih (fun z hz => hc z (by simp [hz]))
    simp only [List.sum_cons, List.length_cons]
    have he : c * ((t.length : ℚ) + 1) = c * t.length + c := by ring
    push_cast
    rw [he]
    linarith

/-- Sum bounded below by a per-element bound. -/
lemma mul_length_le_sum (l : List ℚ) (c : ℚ) (hc : ∀ x ∈ l, c ≤ x) :
    c * l.length ≤ l.sum := by
  induction l with
  | nil => simp
  | cons x t ih =>
    have h1 := hc x (by simp)
    have h2 := ih (fun z hz => hc z (by simp [hz]))
    simp only [List.sum_cons, List.length_cons]
    have he : c * ((t.length : ℚ) + 1) = c * t.length + c := by ring
    push_cast
    rw [he]
    linarith

/-- Strict sum bound for a nonempty list whose elements are all below `c`. -/
lemma sum_lt_mul_length (l : List ℚ) (h : l ≠ []) (c : ℚ)
    (hc : ∀ x ∈ l, x < c) : l.sum < c * l.length := by
  induction l with
  | nil => exact absurd rfl h
  | cons x t ih =>
    have h1 := hc x (by simp)
    cases t with
    | nil => simpa using h1
    | cons y u =>
      have h2 := ih (by simp) (fun z hz => hc z (by simp [hz]))
      simp only [List.sum_cons, List.length_cons] at h2 ⊢
      push_cast at h2 ⊢
      have he : c * ((u.length : ℚ) + 1 + 1) = c * ((u.length : ℚ) + 1) + c := by
        ring
      rw [he]
      linarith

/-- The mean of a nonempty list is at least any common lower bound. -/
lemma le_listMean (l : List ℚ) (h : l ≠ []) (c : ℚ) (hc : ∀ x ∈ l, c ≤ x) :
    c ≤ listMean l := by
  have hl : 0 < (l.length : ℚ) := by exact_mod_cast List.length_pos.mpr h
  rw [listMean, le_div_iff₀ hl]
  exact mul_length_le_sum l c hc

/-- The mean of a nonempty list is at most any common upper bound. -/
lemma listMean_le (l : List ℚ) (h : l ≠ []) (c : ℚ) (hc : ∀ x ∈ l, x ≤ c) :
    listMean l ≤ c := by
  have hl : 0 < (l.length : ℚ) := by exact_mod_cast List.length_pos.mpr h
  rw [listMean, div_le_iff₀ hl]
  calc l.sum ≤ c * l.length := sum_le_mul_length l c hc
    _ = c * l.length := rfl

/-- The mean of a nonempty list is strictly below any strict common upper
bound. -/
lemma listMean_lt (l : List ℚ) (h : l ≠ []) (c : ℚ) (hc : ∀ x ∈ l, x < c) :
    listMean l < c := by
  have hl : 0 < (l.length : ℚ) := by exact_mod_cast List.length_pos.mpr h
  rw [listMean, div_lt_iff₀ hl]
  exact sum_lt_mul_length l h c hc

/-- `_classify_activity` returns `"high"` exactly on `[0.08, ∞)`. -/
lemma classify_eq_high {x : ℚ} : classify_activity x = "high" ↔ 8/100 ≤ x := by
  unfold classify_activity
  split_ifs with h1 h2 h3
  · exact iff_of_true rfl h1
  · exact ⟨fun hf => absurd hf (by decide), fun h => absurd h h1⟩
  · exact ⟨fun hf => absurd hf (by decide), fun h => absurd h h1⟩
  · exact ⟨fun hf => absurd hf (by decide), fun h => absurd h h1⟩

/-- `_classify_activity` returns `"medium"` exactly on `[0.04, 0.08)`. -/
lemma classify_eq_medium {x : ℚ} :
    classify_activity x = "medium" ↔ (4/100 ≤ x ∧ ¬ 8/100 ≤ x) := by
  unfold classify_activity
  split_ifs with h1 h2 h3
  · refine ⟨fun hf => absurd hf (by decide), ?_⟩
    rintro ⟨-, h8⟩
    exact absurd h1 h8
  · exact iff_of_true rfl ⟨h2, h1⟩
  · refine ⟨fun hf => absurd hf (by decide), ?_⟩
    rintro ⟨h4, -⟩
    exact absurd h4 h2
  · refine ⟨fun hf => absurd hf (by decide), ?_⟩
    rintro ⟨h4, -⟩
    exact absurd h4 h2

/-- `_classify_activity` returns `"low"` exactly on `[0.01, 0.04)`. -/
lemma classify_eq_low {x : ℚ} :
    classify_activity x = "low" ↔ (1/100 ≤ x ∧ ¬ 4/100 ≤ x) := by
  unfold classify_activity
  split_ifs with h1 h2 h3
  · refine ⟨fun hf => absurd hf (by decide), ?_⟩
    rintro ⟨-, h4⟩
    exact absurd (le_trans (by norm_num) h1) h4
  · refine ⟨fun hf => absurd hf (by decide), ?_⟩
    rintro ⟨-, h4⟩
    exact absurd h2 h4
  · exact iff_of_true rfl ⟨h3, h2⟩
  · refine ⟨fun hf => absurd hf (by decide), ?_⟩
    rintro ⟨hx, -⟩
    exact absurd hx h3

/-- `_classify_activity` returns `"inactive"` exactly on `(-∞, 0.01)`. -/
lemma classify_eq_inactive {x : ℚ} :
    classify_activity x = "inactive" ↔ ¬ 1/100 ≤ x := by
  unfold classify_activity
  split_ifs with h1 h2 h3
  · refine ⟨fun hf => absurd hf (by decide), ?_⟩
    intro hn
    exact absurd (le_trans (by norm_num) h1) hn
  · refine ⟨fun hf => absurd hf (by decide), ?_⟩
    intro hn
    exact absurd (le_trans (by norm_num) h2) hn
  · refine ⟨fun hf => absurd hf (by decide), ?_⟩
    intro hn
    exact absurd h3 hn
  · exact iff_of_true rfl h3

/-- Classification bands are convex: a nonempty list of intensities that
all classify to `level` has a mean that classifies to `level`. -/
lemma classify_listMean (l : List ℚ) (h : l ≠ []) (level : String)
    (hall : ∀ x ∈ l, classify_activity x = level) :
    classify_activity (listMean l) = level := by
  obtain ⟨x₀, hx₀⟩ : ∃ x, x ∈ l := by
    cases l with
    | nil => exact absurd rfl h
    | cons a t => exact ⟨a, by simp⟩
  have hx := hall x₀ hx₀
  by_cases h8 : 8/100 ≤ x₀
  · have hl : level = "high" := by rw [← hx, classify_eq_high.mpr h8]
    subst hl
    refine classify_eq_high.mpr ?_
    exact le_listMean l h _ (fun x hxl => classify_eq_high.mp (hall x hxl))
  · by_cases h4 : 4/100 ≤ x₀
    · have hl : level = "medium" := by rw [← hx, classify_eq_medium.mpr ⟨h4, h8⟩]
      subst hl
      refine classify_eq_medium.mpr ⟨?_, ?_⟩
      · exact le_listMean l h _
          (fun x hxl => (classify_eq_medium.mp (hall x hxl)).1)
      · refine not_le.mpr (listMean_lt l h _ ?_)
        exact fun x hxl =>
          not_le.mp (classify_eq_medium.mp (hall x hxl)).2
    · by_cases h1 : 1/100 ≤ x₀
      · have hl : level = "low" := by rw [← hx, classify_eq_low.mpr ⟨h1, h4⟩]
        subst hl
        refine classify_eq_low.mpr ⟨?_, ?_⟩
        · exact le_listMean l h _
            (fun x hxl => (classify_eq_low.mp (hall x hxl)).1)
        · refine not_le.mpr (listMean_lt l h _ ?_)
          exact fun x hxl => not_le.mp (classify_eq_low.mp (hall x hxl)).2
      · have hl : level = "inactive" := by rw [← hx, classify_eq_inactive.mpr h1]
        subst hl
        refine classify_eq_inactive.mpr ?_
        refine not_le.mpr (listMean_lt l h _ ?_)
        exact fun x hxl => not_le.mp (classify_eq_inactive.mp (hall x hxl))

/-- `_calculate_motion_intensity` yields a value in `[0, 1]` for
nonnegative component measurements. -/
lemma calculate_motion_intensity_mem (bg of fd : ℚ)
    (hbg : 0 ≤ bg) (hof : 0 ≤ of) (hfd : 0 ≤ fd) :
    0 ≤ calculate_motion_intensity bg of fd ∧
    calculate_motion_intensity bg of fd ≤ 1 := by
  unfold calculate_motion_intensity
  constructor
  · refine le_min ?_ (by norm_num)
    positivity
  · exact min_le_right _ _

/-- The invariant of the `_generate_activity_segments` loop: as long as
the current segment's collected intensities all lie in `[0, 1]` and all
classify to the current level, and the remaining timeline lies in
`[0, 1]`, every emitted segment satisfies `SegGood`. -/
lemma segLoop_good (fps : ℚ) (tlen : ℕ) :
    ∀ (rest : List ℚ) (i start : ℕ) (level : String) (vals : List ℚ)
      (acc : List ActivitySegment),
      vals ≠ [] → (∀ x ∈ vals, 0 ≤ x ∧ x ≤ 1) →
      (∀ x ∈ vals, classify_activity x = level) →
      (∀ x ∈ rest, 0 ≤ x ∧ x ≤ 1) →
      (∀ s ∈ acc, SegGood s) →
      ∀ s ∈ segLoop fps tlen rest i start level vals acc, SegGood s := by
  intro rest
  induction rest with
  | nil =>
    intro i start level vals acc hne hbounds hclass _ hacc s hs
    simp only [segLoop] at hs
    split_ifs at hs with hlt
    · rcases List.mem_append.mp hs with hmem | hmem
      · exact hacc s hmem
      · rcases List.mem_singleton.mp hmem with rfl
        refine ⟨?_, ?_, ?_⟩
        · exact le_listMean vals hne 0 (fun x hx => (hbounds x hx).1)
        · exact listMean_le vals hne 1 (fun x hx => (hbounds x hx).2)
        · exact (classify_listMean vals hne level hclass).symm
    · exact hacc s hs
  | cons v vs ih =>
    intro i start level vals acc hne hbounds hclass hrest hacc s hs
    simp only [segLoop] at hs
    split_ifs at hs with hcond
    · refine ih (i + 1) i (classify_activity v) [v] _ (by simp) ?_ ?_
        (fun x hx => hrest x (by simp [hx])) ?_ s hs
      · intro x hx
        rcases List.mem_singleton.mp hx with rfl
        exact hrest x (by simp)
      · intro x hx
        rcases List.mem_singleton.mp hx with rfl
        rfl
      · intro t ht
        rcases List.mem_append.mp ht with hmem | hmem
        · exact hacc t hmem
        · rcases List.mem_singleton.mp hmem with rfl
          refine ⟨?_, ?_, ?_⟩
          · exact le_listMean vals hne 0 (fun x hx => (hbounds x hx).1)
          · exact listMean_le vals hne 1 (fun x hx => (hbounds x hx).2)
          · exact (classify_listMean vals hne level hclass).symm
    · push_neg at hcond
      refine ih (i + 1) start level (vals ++ [v]) acc (by simp) ?_ ?_
        (fun x hx => hrest x (by simp [hx])) hacc s hs
      · intro x hx
        rcases List.mem_append.mp hx with hmem | hmem
        · exact hbounds x hmem
        · rcases List.mem_singleton.mp hmem with rfl
          exact hrest x (by simp)
      · intro x hx
        rcases List.mem_append.mp hx with hmem | hmem
        · exact hclass x hmem
        · rcases List.mem_singleton.mp hmem with rfl
          exact hcond.1

/-- C4 (confirmed): in any analysis result whose timeline entries come
from `_calculate_motion_intensity` on nonnegative measurements, every
activity segment's mean motion intensity lies in `[0, 1]` and its label
equals the default thresholding rule applied to that mean intensity
(`high` ≥ 0.08, else `medium` ≥ 0.04, else `low` ≥ 0.01, else
`inactive`). -/
theorem c4_confirmed (fps : ℚ) (metaTotalFrames : ℕ) (decoded : List ℚ)
    (hdec : ∀ x ∈ decoded, ∃ bg of fd, 0 ≤ bg ∧ 0 ≤ of ∧ 0 ≤ fd ∧
      x = calculate_motion_intensity bg of fd)
    (r : MotionAnalysisResult)
    (hr : analyze_video fps metaTotalFrames decoded = .ok r) :
    ∀ s ∈ r.activity_segments,
      0 ≤ s.motion_intensity ∧ s.motion_intensity ≤ 1 ∧
      s.activity_level = classify_activity s.motion_intensity := by
  have hmem : ∀ x ∈ decoded, 0 ≤ x ∧ x ≤ 1 := by
    intro x hx
    obtain ⟨bg, of, fd, hbg, hof, hfd, hx'⟩ := hdec x hx
    rw [hx']
    exact calculate_motion_intensity_mem bg of fd hbg hof hfd
  cases decoded with
  | nil => exact absurd hr (by simp [analyze_video, generate_activity_segments])
  | cons v rest =>
    have hsegs : r.activity_segments =
        segLoop fps (v :: rest).length rest 1 0 (classify_activity v) [v] [] := by
      simp only [analyze_video, generate_activity_segments, Except.ok.injEq] at hr
      rw [← hr]
    rw [hsegs]
    intro s hs
    refine segLoop_good fps (v :: rest).length rest 1 0 (classify_activity v)
      [v] [] (by simp) ?_ ?_ ?_ (by simp) s hs
    · intro x hx
      rcases List.mem_singleton.mp hx with rfl
      exact hmem x (by simp)
    · intro x hx
      rcases List.mem_singleton.mp hx with rfl
      rfl
    · intro x hx
      exact hmem x (by simp [hx])

/-- C4 witness: a one-frame video whose single intensity comes from
`_calculate_motion_intensity` on zero measurements. -/
theorem c4_witness :
    0 ≤ (⟨0, 1/30, "inactive", 0, 0, 1⟩ : ActivitySegment).motion_intensity ∧
    (⟨0, 1/30, "inactive", 0, 0, 1⟩ : ActivitySegment).motion_intensity ≤ 1 ∧
    (⟨0, 1/30, "inactive", 0, 0, 1⟩ : ActivitySegment).activity_level =
      classify_activity
        (⟨0, 1/30, "inactive", 0, 0, 1⟩ : ActivitySegment).motion_intensity :=
  c4_confirmed 30 1 [calculate_motion_intensity 0 0 0]
    (by
      intro x hx
      rcases List.mem_singleton.mp hx with rfl
      exact ⟨0, 0, 0, le_refl 0, le_refl 0, le_refl 0, rfl⟩)
    (⟨1/30, 1, 30, [⟨0, 1/30, "inactive", 0, 0, 1⟩],
      [calculate_motion_intensity 0 0 0], [], [], 0⟩ : MotionAnalysisResult)
    (by
      norm_num [analyze_video, generate_activity_segments, segLoop,
        classify_activity, listMean, calculate_motion_intensity,
        identify_sleep_wake_cycles, sleepWakeLoop])
    ⟨0, 1/30, "inactive", 0, 0, 1⟩ (by simp)

/-- Tilings can be concatenated. -/
lemma coversFrom_append (fps : ℚ) :
    ∀ (l₁ : List ActivitySegment) (a m : ℕ) (l₂ : List ActivitySegment) (b : ℕ),
      coversFrom fps a l₁ m → coversFrom fps m l₂ b →
      coversFrom fps a (l₁ ++ l₂) b := by
  intro l₁
  induction l₁ with
  | nil =>
    intro a m l₂ b h1 h2
    simp only [coversFrom] at h1
    subst h1
    simpa using h2
  | cons s t ih =>
    intro a m l₂ b h1 h2
    simp only [coversFrom] at h1
    obtain ⟨hs, hlt, hst, hen, hrest⟩ := h1
    exact ⟨hs, hlt, hst, hen, ih _ _ _ _ hrest h2⟩

/-- A tiling of `[a, b)` forces `a ≤ b`. -/
lemma coversFrom_le (fps : ℚ) :
    ∀ (l : List ActivitySegment) (a b : ℕ), coversFrom fps a l b → a ≤ b := by
  intro l
  induction l with
  | nil =>
    intro a b h
    exact le_of_eq h
  | cons s t ih =>
    intro a b h
    obtain ⟨_, hlt, _, _, hrest⟩ := h
    exact le_trans (le_of_lt hlt) (ih _ _ hrest)

/-- Every segment of a tiling of `[a, b)` is a nonempty subrange. -/
lemma coversFrom_bounds (fps : ℚ) :
    ∀ (l : List ActivitySegment) (a b : ℕ), coversFrom fps a l b →
      ∀ s ∈ l, a ≤ s.frame_start ∧ s.frame_start < s.frame_end ∧
        s.frame_end ≤ b := by
  intro l
  induction l with
  | nil =>
    intro a b _ s hs
    exact absurd hs (List.not_mem_nil s)
  | cons t u ih =>
    intro a b h s hs
    obtain ⟨hstart, hlt, _, _, hrest⟩ := h
    rcases List.mem_cons.mp hs with rfl | hmem
    · exact ⟨le_of_eq hstart.symm, hstart ▸ hlt,
        coversFrom_le fps u _ _ hrest⟩
    · obtain ⟨h1, h2, h3⟩ := ih _ _ hrest s hmem
      exact ⟨le_trans (le_of_lt (hstart ▸ hlt)) h1, h2, h3⟩

/-- Each frame of `[a, b)` lies in exactly one segment of a tiling. -/
lemma coversFrom_unique (fps : ℚ) :
    ∀ (l : List ActivitySegment) (a b : ℕ), coversFrom fps a l b →
      ∀ n, a ≤ n → n < b →
        ∃! s, s ∈ l ∧ s.frame_start ≤ n ∧ n < s.frame_end := by
  intro l
  induction l with
  | nil =>
    intro a b h n h1 h2
    subst h
    exact absurd h2 (not_lt.mpr h1)
  | cons s t ih =>
    intro a b h n h1 h2
    obtain ⟨hstart, hlt, _, _, hrest⟩ := h
    by_cases hn : n < s.frame_end
    · refine ⟨s, ⟨List.mem_cons_self s t, hstart ▸ h1, hn⟩, ?_⟩
      rintro u ⟨hu, hus, hun⟩
      rcases List.mem_cons.mp hu with rfl | hmem
      · rfl
      · have := (coversFrom_bounds fps t _ _ hrest u hmem).1
        exact absurd (lt_of_le_of_lt this (lt_of_le_of_lt hus hn))
          (lt_irrefl s.frame_end)
    · obtain ⟨u, ⟨hu, hus, hun⟩, huniq⟩ :=
        ih _ _ hrest n (not_lt.mp hn) h2
      refine ⟨u, ⟨List.mem_cons_of_mem s hu, hus, hun⟩, ?_⟩
      rintro w ⟨hw, hws, hwn⟩
      rcases List.mem_cons.mp hw with rfl | hmem
      · exact absurd hwn hn
      · exact huniq w ⟨hmem, hws, hwn⟩

/-- Consecutive segments of a tiling are contiguous. -/
lemma coversFrom_chain (fps : ℚ) :
    ∀ (l : List ActivitySegment) (a b : ℕ), coversFrom fps a l b →
      List.Chain' (fun s t => t.frame_start = s.frame_end) l := by
  intro l
  induction l with
  | nil =>
    intro a b _
    exact List.chain'_nil
  | cons s t ih =>
    intro a b h
    obtain ⟨_, _, _, _, hrest⟩ := h
    cases t with
    | nil => exact List.chain'_singleton s
    | cons u r =>
      have hrest' := hrest
      obtain ⟨hu, _, _, _, _⟩ := hrest'
      exact List.chain'_cons.mpr ⟨hu, ih _ _ hrest⟩

/-- The durations of a tiling of `[a, b)` telescope to `(b − a)/fps`. -/
lemma coversFrom_sum (fps : ℚ) :
    ∀ (l : List ActivitySegment) (a b : ℕ), coversFrom fps a l b →
      (l.map (fun s => s.end_time - s.start_time)).sum =
        (b : ℚ) / fps - (a : ℚ) / fps := by
  intro l
  induction l with
  | nil =>
    intro a b h
    subst h
    simp
  | cons s t ih =>
    intro a b h
    obtain ⟨_, _, hst, hen, hrest⟩ := h
    have hsum := ih _ _ hrest
    simp only [List.map_cons, List.sum_cons, hst, hen, hsum]
    ring

/-- The loop of `_generate_activity_segments` extends a tiling of
`[0, start)` into a tiling of `[0, tlen)`. -/
lemma segLoop_coversFrom (fps : ℚ) (tlen : ℕ) :
    ∀ (rest : List ℚ) (i start : ℕ) (level : String) (vals : List ℚ)
      (acc : List ActivitySegment),
      start + vals.length = i → vals ≠ [] → i + rest.length = tlen →
      coversFrom fps 0 acc start →
      coversFrom fps 0 (segLoop fps tlen rest i start level vals acc) tlen := by
  intro rest
  induction rest with
  | nil =>
    intro i start level vals acc hi hne hlen hacc
    have hpos : 0 < vals.length := List.length_pos.mpr hne
    have hstart : start < tlen := by
      simp only [List.length_nil, Nat.add_zero] at hlen
      omega
    simp only [segLoop]
    rw [if_pos hstart]
    refine coversFrom_append fps acc 0 start _ tlen hacc ?_
    exact ⟨rfl, hstart, rfl, rfl, rfl⟩
  | cons v vs ih =>
    intro i start level vals acc hi hne hlen hacc
    have hpos : 0 < vals.length := List.length_pos.mpr hne
    have hstartlt : start < i := by omega
    simp only [segLoop]
    split_ifs with hcond
    · refine ih (i + 1) i _ [v] _ (by simp) (by simp) (by simp at hlen ⊢; omega) ?_
      refine coversFrom_append fps acc 0 start _ i hacc ?_
      exact ⟨rfl, hstartlt, rfl, rfl, rfl⟩
    · refine ih (i + 1) start level (vals ++ [v]) acc ?_ (by simp) ?_ hacc
      · simp only [List.length_append, List.length_singleton]
        omega
      · simp only [List.length_cons] at hlen
        omega

/-- C3 counterexample: with container metadata claiming 100 frames but only
5 frames decoded at 30 fps, the analysis result's segments cover only the
decoded frames: frame 50 of `[0, total_frames)` lies in no segment, and
the segment durations sum to 1/6 s while `total_duration` is 10/3 s — off
by far more than `1/fps`. -/
theorem c3_counterexample :
    analyze_video 30 100 [0, 0, 0, 0, 0] =
      .ok ⟨10/3, 100, 30, [⟨0, 1/6, "inactive", 0, 0, 5⟩],
           [0, 0, 0, 0, 0], [], [], 0⟩ ∧
    (∀ s ∈ [(⟨0, 1/6, "inactive", 0, 0, 5⟩ : ActivitySegment)],
      ¬ (s.frame_start ≤ 50 ∧ 50 < s.frame_end)) ∧
    ¬ |(([(⟨0, 1/6, "inactive", 0, 0, 5⟩ : ActivitySegment)].map
        (fun s => s.end_time - s.start_time)).sum - 10/3 : ℚ)| ≤ 1/30 := by
  refine ⟨?_, ?_, ?_⟩
  · norm_num [analyze_video, generate_activity_segments, segLoop,
      classify_activity, listMean, identify_sleep_wake_cycles, sleepWakeLoop]
  · intro s hs
    rcases List.mem_singleton.mp hs with rfl
    norm_num
  · norm_num [abs_le]

/-- C3 (amended): for every analysis result in which all of the frames
promised by the container metadata were actually decoded
(`total_frames = length of the timeline`), consecutive segments are
contiguous, every frame index in `[0, total_frames)` belongs to exactly
one segment, each segment contains at least one frame, and the segment
durations sum exactly to `total_duration` (hence within `1/fps`).
Without that hypothesis the invariants hold over the decoded frames only
(see the counterexample). -/
theorem c3_amended (fps : ℚ) (hfps : 0 < fps) (metaTotalFrames : ℕ)
    (decoded : List ℚ) (r : MotionAnalysisResult)
    (hr : analyze_video fps metaTotalFrames decoded = .ok r)
    (hmeta : metaTotalFrames = decoded.length) :
    List.Chain' (fun s t => t.frame_start = s.frame_end) r.activity_segments ∧
    (∀ n < r.total_frames,
      ∃! s, s ∈ r.activity_segments ∧ s.frame_start ≤ n ∧ n < s.frame_end) ∧
    (∀ s ∈ r.activity_segments, s.frame_start < s.frame_end) ∧
    (r.activity_segments.map (fun s => s.end_time - s.start_time)).sum =
      r.total_duration ∧
    |(r.activity_segments.map (fun s => s.end_time - s.start_time)).sum -
      r.total_duration| ≤ 1/fps := by
  cases decoded with
  | nil => exact absurd hr (by simp [analyze_video, generate_activity_segments])
  | cons v rest =>
    simp only [analyze_video, generate_activity_segments, Except.ok.injEq] at hr
    subst hr
    have hcov : coversFrom fps 0
        (segLoop fps (v :: rest).length rest 1 0 (classify_activity v) [v] [])
        (v :: rest).length := by
      refine segLoop_coversFrom fps (v :: rest).length rest 1 0
        (classify_activity v) [v] [] (by simp) (by simp) (by simp; omega) rfl
    have hsum := coversFrom_sum fps _ 0 _ hcov
    refine ⟨coversFrom_chain fps _ 0 _ hcov, ?_, ?_, ?_, ?_⟩
    · intro n hn
      simp only at hn
      rw [hmeta] at hn
      exact coversFrom_unique fps _ 0 _ hcov n (Nat.zero_le n) hn
    · intro s hs
      exact (coversFrom_bounds fps _ 0 _ hcov s hs).2.1
    · simp only at hsum ⊢
      rw [hsum, hmeta]
      simp
    · simp only at hsum ⊢
      rw [hsum, hmeta]
      simp only [Nat.cast_zero, zero_div, sub_zero, sub_self, abs_zero]
      positivity

/-- C3 witness: 5 decoded frames at 30 fps with matching metadata count. -/
theorem c3_witness :
    List.Chain' (fun s t => t.frame_start = s.frame_end)
      (⟨1/6, 5, 30, [⟨0, 1/6, "inactive", 0, 0, 5⟩], [0, 0, 0, 0, 0], [], [], 0⟩ :
        MotionAnalysisResult).activity_segments ∧
    (∀ n < (⟨1/6, 5, 30, [⟨0, 1/6, "inactive", 0, 0, 5⟩], [0, 0, 0, 0, 0],
        [], [], 0⟩ : MotionAnalysisResult).total_frames,
      ∃! s, s ∈ (⟨1/6, 5, 30, [⟨0, 1/6, "inactive", 0, 0, 5⟩],
          [0, 0, 0, 0, 0], [], [], 0⟩ :
          MotionAnalysisResult).activity_segments ∧
        s.frame_start ≤ n ∧ n < s.frame_end) ∧
    (∀ s ∈ (⟨1/6, 5, 30, [⟨0, 1/6, "inactive", 0, 0, 5⟩], [0, 0, 0, 0, 0],
        [], [], 0⟩ : MotionAnalysisResult).activity_segments,
      s.frame_start < s.frame_end) ∧
    ((⟨1/6, 5, 30, [⟨0, 1/6, "inactive", 0, 0, 5⟩], [0, 0, 0, 0, 0], [], [], 0⟩ :
        MotionAnalysisResult).activity_segments.map
      (fun s => s.end_time - s.start_time)).sum =
      (⟨1/6, 5, 30, [⟨0, 1/6, "inactive", 0, 0, 5⟩], [0, 0, 0, 0, 0], [], [], 0⟩ :
        MotionAnalysisResult).total_duration ∧
    |((⟨1/6, 5, 30, [⟨0, 1/6, "inactive", 0, 0, 5⟩], [0, 0, 0, 0, 0], [], [], 0⟩ :
        MotionAnalysisResult).activity_segments.map
      (fun s => s.end_time - s.start_time)).sum -
      (⟨1/6, 5, 30, [⟨0, 1/6, "inactive", 0, 0, 5⟩], [0, 0, 0, 0, 0], [], [], 0⟩ :
        MotionAnalysisResult).total_duration| ≤ 1/30 :=
  c3_amended 30 (by norm_num) 5 [0, 0, 0, 0, 0] _
    (by
      norm_num [analyze_video, generate_activity_segments, segLoop,
        classify_activity, listMean, identify_sleep_wake_cycles, sleepWakeLoop])
    rfl

/-- Setting a key makes lookup return the new value. -/
lemma assocGet_set_same {a : Type} [DecidableEq a] {b : Type}
    (m : List (a × b)) (k : a) (v : b) : assocGet (assocSet m k v) k = some v := by
  induction m with
  | nil => simp [assocSet, assocGet]
  | cons p rest ih =>
    obtain ⟨k', v'⟩ := p
    by_cases h : k' = k
    · simp [assocSet, assocGet, h]
    · simp [assocSet, assocGet, h, ih]

/-- Setting one key leaves lookups of other keys unchanged. -/
lemma assocGet_set_ne {a : Type} [DecidableEq a] {b : Type}
    (m : List (a × b)) (k j : a) (v : b) (h : j ≠ k) :
    assocGet (assocSet m k v) j = assocGet m j := by
  induction m with
  | nil => simp [assocSet, assocGet, Ne.symm h]
  | cons p rest ih =>
    obtain ⟨k', v'⟩ := p
    by_cases hk : k' = k
    · subst hk
      simp [assocSet, assocGet, Ne.symm h]
    · simp only [assocSet, if_neg hk, assocGet]
      by_cases hj : k' = j <;> simp [hj, ih]

/-- A bounded deque append always ends with the appended element. -/
lemma boundedAppend_getLast {a : Type} (maxlen : ℕ) (hm : 1 ≤ maxlen)
    (l : List a) (x : a) : (boundedAppend maxlen l x).getLast? = some x := by
  unfold boundedAppend
  have hk : (l ++ [x]).length - maxlen ≤ l.length := by
    simp only [List.length_append, List.length_singleton]
    omega
  rw [List.drop_append_of_le_length hk]
  exact List.getLast?_concat _

/-- `process_all` unfoldings. -/
lemma process_all_nil (st : TrackerState) : process_all st [] = st := rfl

/-- `process_all` unfolding on a cons. -/
lemma process_all_cons (st : TrackerState) (p : ℚ × ProgressEvent)
    (rest : List (ℚ × ProgressEvent)) :
    process_all st (p :: rest) = process_all (process_event p.1 st p.2) rest := rfl

/-- Processing an event appends it to its own job's history. -/
lemma historyEventsOf_process_event_self (now : ℚ) (st : TrackerState)
    (e : ProgressEvent) :
    historyEventsOf e.job_id (process_event now st e) =
      boundedAppend 100 (historyEventsOf e.job_id st) e := by
  unfold historyEventsOf process_event
  rw [assocGet_set_same]
  by_cases hp : e.event_type = .progress <;>
    simp [hp, addSnapshot, addEvent]

/-- Processing an event leaves other jobs' histories unchanged. -/
lemma historyEventsOf_process_event_ne (now : ℚ) (st : TrackerState)
    (e : ProgressEvent) (j : String) (h : j ≠ e.job_id) :
    historyEventsOf j (process_event now st e) = historyEventsOf j st := by
  unfold historyEventsOf process_event
  rw [assocGet_set_ne _ _ _ _ h]

/-- Processing events none of which belong to job `j` leaves `j`'s history
unchanged. -/
lemma historyEventsOf_process_all_ne (j : String) :
    ∀ (evs : List (ℚ × ProgressEvent)),
      (∀ p ∈ evs, (p.2).job_id ≠ j) →
      ∀ st, historyEventsOf j (process_all st evs) = historyEventsOf j st := by
  intro evs
  induction evs with
  | nil =>
    intro _ st
    rfl
  | cons p rest ih =>
    intro hj st
    rw [process_all_cons, ih (fun q hq => hj q (by simp [hq])),
      historyEventsOf_process_event_ne]
    exact fun hh => hj p (by simp) hh.symm

/-- After the dispatcher drains the queue, the last event in job `j`'s
history is the last submitted event for `j` (whenever any exists). -/
lemma historyEventsOf_process_all_getLast (j : String) :
    ∀ (evs : List (ℚ × ProgressEvent)) (st : TrackerState),
      ((evs.map Prod.snd).filter (fun e => e.job_id = j)) ≠ [] →
      (historyEventsOf j (process_all st evs)).getLast? =
        ((evs.map Prod.snd).filter (fun e => e.job_id = j)).getLast? := by
  intro evs
  induction evs with
  | nil =>
    intro st hne
    exact absurd rfl hne
  | cons p rest ih =>
    intro st hne
    rw [process_all_cons]
    by_cases hj : p.2.job_id = j
    · have hfil : ((p :: rest).map Prod.snd).filter (fun e => e.job_id = j) =
          p.2 :: (rest.map Prod.snd).filter (fun e => e.job_id = j) := by
        simp [hj]
      rw [hfil]
      by_cases hrest : (rest.map Prod.snd).filter (fun e => e.job_id = j) = []
      · have hall : ∀ q ∈ rest, (q.2).job_id ≠ j := by
          intro q hq hqj
          have hmem : q.2 ∈ rest.map Prod.snd := List.mem_map_of_mem Prod.snd hq
          exact (List.filter_eq_nil_iff.mp hrest q.2 hmem) (by simp [hqj])
        rw [historyEventsOf_process_all_ne j rest hall (process_event p.1 st p.2),
          hrest]
        subst hj
        rw [historyEventsOf_process_event_self,
          boundedAppend_getLast 100 (by norm_num)]
        simp
      · rw [ih (process_event p.1 st p.2) hrest]
        rcases hx : (rest.map Prod.snd).filter (fun e => e.job_id = j) with
          _ | ⟨x, xs⟩
        · exact absurd hx hrest
        · rw [hx, List.getLast?_cons_cons]
    · have hfil : ((p :: rest).map Prod.snd).filter (fun e => e.job_id = j) =
          (rest.map Prod.snd).filter (fun e => e.job_id = j) := by
        simp [hj]
      rw [hfil] at hne ⊢
      exact ih (process_event p.1 st p.2) hne

/-- The processed log is exactly the submitted events, in order. -/
lemma process_all_log :
    ∀ (evs : List (ℚ × ProgressEvent)) (st : TrackerState),
      (process_all st evs).processed_log =
        st.processed_log ++ evs.map Prod.snd := by
  intro evs
  induction evs with
  | nil =>
    intro st
    simp [process_all_nil]
  | cons p rest ih =>
    intro st
    rw [process_all_cons, ih]
    simp [process_event]

/-- C9 counterexample: the tracker records a `progress` event for a job
after its `completed` event — a terminal event, once recorded, is NOT
necessarily the last event in the job's history, because `_process_event`
appends unconditionally. -/
theorem c9_counterexample :
    historyEventsOf "a" (process_all initialTracker
      [(0, ⟨"a", .started, 0, 0, "s", "m"⟩),
       (1, ⟨"a", .completed, 1, 100, "done", "m"⟩),
       (2, ⟨"a", .progress, 2, 50, "s", "m"⟩)]) =
      [⟨"a", .started, 0, 0, "s", "m"⟩,
       ⟨"a", .completed, 1, 100, "done", "m"⟩,
       ⟨"a", .progress, 2, 50, "s", "m"⟩] ∧
    ProgressEventType.isTerminal .completed = true ∧
    ProgressEventType.isTerminal .progress = false := by
  exact ⟨rfl, rfl, rfl⟩

/-- C9 (amended): the dispatcher delivers each job's events to its
subscribers in submission order (the delivered sequence for job `j` is
exactly the submitted sequence filtered to `j`), and a terminal event is
the last event in the job's history whenever it is the last event
submitted for that job — but the bus does not enforce this: events
submitted after a terminal event are recorded after it. -/
theorem c9_amended (evs : List (ℚ × ProgressEvent)) (j : String) :
    deliveredTo j (process_all initialTracker evs) =
      (evs.map Prod.snd).filter (fun e => e.job_id = j) ∧
    (∀ e, ((evs.map Prod.snd).filter (fun e => e.job_id = j)).getLast? = some e →
      e.event_type.isTerminal = true →
      (historyEventsOf j (process_all initialTracker evs)).getLast? = some e) := by
  constructor
  · unfold deliveredTo
    rw [process_all_log]
    simp [initialTracker]
  · intro e hl _
    have hne : (evs.map Prod.snd).filter (fun e => e.job_id = j) ≠ [] := by
      intro hnil
      rw [hnil] at hl
      cases hl
    rw [historyEventsOf_process_all_getLast j evs initialTracker hne]
    exact hl

/-- C9 witness: a job whose last submitted event is `completed` ends its
history with that terminal event. -/
theorem c9_witness :
    (historyEventsOf "a" (process_all initialTracker
      [(0, ⟨"a", .started, 0, 0, "s", "m"⟩),
       (1, ⟨"a", .completed, 1, 100, "done", "m"⟩)])).getLast? =
      some ⟨"a", .completed, 1, 100, "done", "m"⟩ :=
  (c9_amended [(0, ⟨"a", .started, 0, 0, "s", "m"⟩),
    (1, ⟨"a", .completed, 1, 100, "done", "m"⟩)] "a").2
    ⟨"a", .completed, 1, 100, "done", "m"⟩ (by simp) rfl

end MouseVideo
